import Mathlib

/-
Shallow embedding of the CHIP-8 interpreter core from src/chip8.rs.

Conventions of the embedding:
* Machine integers are modelled as `Nat` with an explicit `% 2^w` wherever the
  Rust code performs wrapping arithmetic (`as u8` casts, `overflowing_sub`,
  `<<=` on `u8`, `u16` addition).
* The register file `v`, the 4096-byte `ram` and the 64x32 `screen` are
  modelled as total functions; every `ram` dereference in the Rust code is a
  checked array index that panics when the index is out of range, so every
  `ram` access in the embedding goes through `ramRead`/`ramWrite`, which
  return `Except.error` (the fatal panic path) for an index `>= 4096` and
  never evaluate the memory function there.  Register indices reaching `exec`
  are always 4-bit nibbles produced by the decoder, and every screen write is
  dominated by the explicit clip check of the draw loop, mirroring the source.
* A Rust `panic!`-like abort (a failed `assert!` or an out-of-bounds index) is
  `Except.error`; `println!`/`eprintln!` diagnostics of `run_opcode` are
  collected in a `List Diag`.
* The host environment (macroquad keyboard queries and the random source) is
  an explicit `Host` record passed to `exec`.
* The Rust call stack is `Vec<usize>` with push/pop at the tail; the list
  `stack` stores the same stack with its top element at the head.
-/

/-- The macroquad key codes the interpreter's keypad mapping mentions. -/
inductive KeyCode where
  | Key1 | Key2 | Key3 | Key4
  | Q | W | E | R
  | A | S | D | F
  | Z | X | C | V
  | Unknown
deriving DecidableEq

/-- One diagnostic event emitted by `run_opcode` (a `println!` or `eprintln!`). -/
inductive Diag where
  | ignored
  | unsupportedKey (opcode : Nat)
  | unsupportedSub (opcode sub_opcode : Nat)
  | unsupported (opcode : Nat)
deriving DecidableEq

/-- The decoded instruction enum of src/chip8.rs (same constructor names). -/
inductive Instruction where
  | Clear
  | Return
  | Jump (address : Nat)
  | SubRoutine (address : Nat)
  | SkipOnXeqV (register value : Nat)
  | SkipOnXneqV (register value : Nat)
  | SkipOnXeqY (x_register y_register : Nat)
  | LoadNormalRegister (register value : Nat)
  | AddToNormalRegister (register value : Nat)
  | SetXtoY (x_register y_register : Nat)
  | SetXtoXorY (x_register y_register : Nat)
  | SetXtoXandY (x_register y_register : Nat)
  | SetXtoXxorY (x_register y_register : Nat)
  | AddYtoX (x_register y_register : Nat)
  | SubYfromX (x_register y_register : Nat)
  | SetXtoYshiftRightOnce (x_register y_register : Nat)
  | SetXtoYMinusX (x_register y_register : Nat)
  | SetXtoYshiftLeftOnce (x_register y_register : Nat)
  | SkipOnXneqY (x_register y_register : Nat)
  | LoadIndexRegister (value : Nat)
  | JumpByRegister (address : Nat)
  | LoadRegisterWithRandom (register value : Nat)
  | DrawSprite (x_register y_register num_bytes : Nat)
  | SkipIfPressed (register : Nat)
  | SkipNotPressed (register : Nat)
  | StoreDeelayInRegister (register : Nat)
  | WaitUserInput (register : Nat)
  | SetDeelayFromRegister (register : Nat)
  | SetSoundTimerFromRegister (register : Nat)
  | AddRegisterToIndex (register : Nat)
  | LoadFont (value : Nat)
  | StoreRegisterInBCD (register : Nat)
  | StoreRegistersInMemmory (last_register : Nat)
  | FillRegisters (last_register : Nat)

/-- The machine state of `struct Chip8` (minus the rendering backend). -/
structure Chip8 where
  v : Nat → Nat
  i : Nat
  pc : Nat
  ram : Nat → Nat
  deelay : Nat
  sound_timer : Nat
  screen : Nat → Nat → Nat
  screen_update : Bool
  stack : List Nat

/-- The host environment: keyboard queries and the random source. -/
structure Host where
  is_key_down : KeyCode → Bool
  keys_pressed : List KeyCode
  rand : Nat

/-- Pointwise update of a register/memory function (array store). -/
def upd (f : Nat → Nat) (k x : Nat) : Nat → Nat :=
  fun n => if n = k then x else f n

/-- Pointwise update of the screen at one pixel. -/
def upd2 (f : Nat → Nat → Nat) (r c x : Nat) : Nat → Nat → Nat :=
  fun a b => if a = r ∧ b = c then x else f a b

/-- Checked read of `self.ram[idx]`: a Rust index out of the 4096-byte array
is a bounds-check panic, modelled as the fatal `Except.error` path. -/
def ramRead (ram : Nat → Nat) (idx : Nat) : Except String Nat :=
  if idx < 4096 then .ok (ram idx) else .error "ram index out of bounds"

/-- Checked write of `self.ram[idx] = val`, with the same panic semantics. -/
def ramWrite (ram : Nat → Nat) (idx val : Nat) : Except String (Nat → Nat) :=
  if idx < 4096 then .ok (upd ram idx val) else .error "ram index out of bounds"

/-- `Chip8::keypad_to_keyboard`. -/
def keypad_to_keyboard (old_key : Nat) : KeyCode :=
  if old_key = 0x1 then .Key1
  else if old_key = 0x2 then .Key2
  else if old_key = 0x3 then .Key3
  else if old_key = 0xC then .Key4
  else if old_key = 0x4 then .Q
  else if old_key = 0x5 then .W
  else if old_key = 0x6 then .E
  else if old_key = 0xD then .R
  else if old_key = 0x7 then .A
  else if old_key = 0x8 then .S
  else if old_key = 0x9 then .D
  else if old_key = 0xE then .F
  else if old_key = 0xA then .Z
  else if old_key = 0x0 then .X
  else if old_key = 0xB then .C
  else if old_key = 0xF then .V
  else .Unknown

/-- `Chip8::keyboard_to_keypad`. -/
def keyboard_to_keypad (key : KeyCode) : Nat :=
  match key with
  | .Key1 => 0x1
  | .Key2 => 0x2
  | .Key3 => 0x3
  | .Key4 => 0xC
  | .Q => 0x4
  | .W => 0x5
  | .E => 0x6
  | .R => 0xD
  | .A => 0x7
  | .S => 0x8
  | .D => 0x9
  | .F => 0xE
  | .Z => 0xA
  | .X => 0x0
  | .C => 0xB
  | .V => 0xF
  | .Unknown => 254

/-- `Chip8::tick`: the 60 Hz timer decrement.  `decay_speed` is the literal 1
of the source; the inner `if self.deelay < decay_speed` branches are kept. -/
def tick (s : Chip8) : Chip8 :=
  let decay_speed := 1
  let deelay' :=
    if s.deelay > 0 then
      if s.deelay < decay_speed then 0 else s.deelay - decay_speed
    else s.deelay
  let sound' :=
    if s.sound_timer > 1 then
      if s.sound_timer < decay_speed then 0 else s.sound_timer - decay_speed
    else s.sound_timer
  { s with deelay := deelay', sound_timer := sound' }

/-- One inner-loop iteration of `DrawSprite` (one column `x` of a sprite row):
the clip check, the big-endian bit extraction, the XOR into the screen and the
collision update of the threaded flag value.  The pair is (screen, flag). -/
def drawBit (sprite_data ys xs y x : Nat) (p : (Nat → Nat → Nat) × Nat) :
    (Nat → Nat → Nat) × Nat :=
  if 32 ≤ y + ys ∨ 64 ≤ x + xs then p
  else
    let bit_value : Nat := if sprite_data &&& (1 <<< (7 - x)) ≠ 0 then 1 else 0
    let prev := p.1 (y + ys) (x + xs)
    (upd2 p.1 (y + ys) (x + xs) (prev ^^^ bit_value),
     if prev = 1 ∧ prev ^^^ bit_value = 0 then 1 else p.2)

/-- The inner `for x in 0..8` loop of `DrawSprite`, processing columns
`x, x+1, ..., x+k-1` of the row `y`. -/
def drawRowAux (sprite_data ys xs y : Nat) :
    Nat → Nat → ((Nat → Nat → Nat) × Nat) → (Nat → Nat → Nat) × Nat
  | _, 0, p => p
  | x, k + 1, p => drawRowAux sprite_data ys xs y (x + 1) k (drawBit sprite_data ys xs y x p)

/-- The outer `for y in 0..num_bytes` loop of `DrawSprite`: each row reads its
sprite byte from ram (a checked index) and then runs the 8-column inner loop. -/
def drawRows (ram : Nat → Nat) (i ys xs : Nat) :
    Nat → Nat → ((Nat → Nat → Nat) × Nat) → Except String ((Nat → Nat → Nat) × Nat)
  | _, 0, p => .ok p
  | y, k + 1, p => do
      let sprite_data ← ramRead ram (i + y)
      drawRows ram i ys xs (y + 1) k (drawRowAux sprite_data ys xs y 0 8 p)

/-- The `for register in 0..=last_register` loop of `FillRegisters` (FX65),
processing registers `r, r+1, ..., r+k-1`. -/
def fillLoop (ram : Nat → Nat) (i : Nat) :
    Nat → Nat → (Nat → Nat) → Except String (Nat → Nat)
  | _, 0, v => .ok v
  | register, k + 1, v => do
      let b ← ramRead ram (i + register)
      fillLoop ram i (register + 1) k (upd v register b)

/-- The `for register in 0..=last_register` loop of `StoreRegistersInMemmory`
(FX55), processing registers `r, r+1, ..., r+k-1`. -/
def storeLoop (v : Nat → Nat) (i : Nat) :
    Nat → Nat → (Nat → Nat) → Except String (Nat → Nat)
  | _, 0, ram => .ok ram
  | register, k + 1, ram => do
      let ram' ← ramWrite ram (i + register) (v register)
      storeLoop v i (register + 1) k ram'

/-- `Chip8::exec`: apply one decoded instruction to the machine state.
A failed `assert!` or an out-of-bounds ram index is the `Except.error` path. -/
def exec (h : Host) (s : Chip8) (instruction : Instruction) : Except String Chip8 :=
  match instruction with
  | .Clear =>
      .ok { s with screen := fun r c => if r < 32 ∧ c < 64 then 0 else s.screen r c }
  | .LoadNormalRegister register value =>
      .ok { s with v := upd s.v register value }
  | .LoadIndexRegister value =>
      .ok { s with i := value }
  | .SkipOnXeqV register value =>
      .ok { s with pc := s.pc + 2 * (if s.v register = value then 1 else 0) }
  | .SkipOnXneqV register value =>
      .ok { s with pc := s.pc + 2 * (if s.v register ≠ value then 1 else 0) }
  | .SkipOnXeqY x_register y_register =>
      .ok { s with pc := s.pc + 2 * (if s.v x_register = s.v y_register then 1 else 0) }
  | .SkipOnXneqY x_register y_register =>
      .ok { s with pc := s.pc + 2 * (if s.v x_register ≠ s.v y_register then 1 else 0) }
  | .SetXtoY x_register y_register =>
      .ok { s with v := upd s.v x_register (s.v y_register) }
  | .SetXtoXorY x_register y_register =>
      .ok { s with v := upd s.v x_register (s.v x_register ||| s.v y_register) }
  | .SetXtoXandY x_register y_register =>
      .ok { s with v := upd s.v x_register (s.v x_register &&& s.v y_register) }
  | .SetXtoXxorY x_register y_register =>
      .ok { s with v := upd s.v x_register (s.v x_register ^^^ s.v y_register) }
  | .AddYtoX x_register y_register =>
      -- value: u16 = v[x] + v[y]; v[x] = value as u8; VF = 0 then 1 on carry
      let value := s.v x_register + s.v y_register
      .ok { s with v := upd (upd s.v x_register (value % 256)) 0xF
                          (if 0xFF < value then 1 else 0) }
  | .SubYfromX x_register y_register =>
      -- (value, overflowed) = v[x].overflowing_sub(v[y]); VF = 1 then 0 on borrow
      let value := (s.v x_register + 256 - s.v y_register) % 256
      .ok { s with v := upd (upd s.v x_register value) 0xF
                          (if s.v x_register < s.v y_register then 0 else 1) }
  | .SetXtoYshiftRightOnce x_register y_register =>
      let v1 := upd s.v x_register (s.v y_register)
      let v2 := upd v1 0xF (v1 x_register &&& 1)
      .ok { s with v := upd v2 x_register (v2 x_register / 2) }
  | .SetXtoYshiftLeftOnce x_register y_register =>
      let v1 := upd s.v x_register (s.v y_register)
      let v2 := upd v1 0xF ((v1 x_register >>> 7) &&& 1)
      .ok { s with v := upd v2 x_register (v2 x_register * 2 % 256) }
  | .SetXtoYMinusX x_register y_register =>
      -- (value, overflowed) = v[y].overflowing_sub(v[x]); VF = 1 then 0 on borrow
      let value := (s.v y_register + 256 - s.v x_register) % 256
      .ok { s with v := upd (upd s.v x_register value) 0xF
                          (if s.v y_register < s.v x_register then 0 else 1) }
  | .AddToNormalRegister register value =>
      .ok { s with v := upd s.v register ((s.v register + value) % 256) }
  | .JumpByRegister address =>
      .ok { s with pc := address + s.v 0 }
  | .LoadRegisterWithRandom register value =>
      let random_value := h.rand % 256
      .ok { s with v := upd s.v register (value &&& random_value) }
  | .DrawSprite x_register y_register num_bytes =>
      let x_start := s.v x_register % 64
      let y_start := s.v y_register % 32
      -- v[0xF] = 0 before the loop; the loop threads the flag starting from 0.
      -- assert!(num_bytes <= 0xF)
      if num_bytes ≤ 0xF then
        match drawRows s.ram s.i y_start x_start 0 num_bytes (s.screen, 0) with
        | .error msg => .error msg
        | .ok p =>
            -- update_screen() only talks to the rendering backend.
            .ok { s with screen := p.1, v := upd s.v 0xF p.2, screen_update := true }
      else .error "assertion failed: num_bytes <= 0xF"
  | .WaitUserInput register =>
      let keys_pressed := h.keys_pressed
      if keys_pressed.length ≠ 1 then
        .ok { s with pc := s.pc - 2 }
      else
        .ok { s with
              v := keys_pressed.foldl (fun vv key => upd vv register (keyboard_to_keypad key)) s.v }
  | .LoadFont value =>
      .ok { s with i := 0x50 + 5 * value }
  | .SkipIfPressed register =>
      let key_to_check := keypad_to_keyboard (s.v register)
      if h.is_key_down key_to_check then .ok { s with pc := s.pc + 2 } else .ok s
  | .SkipNotPressed register =>
      let key_to_check := keypad_to_keyboard (s.v register)
      if !h.is_key_down key_to_check then .ok { s with pc := s.pc + 2 } else .ok s
  | .Jump address =>
      .ok { s with pc := address }
  | .Return =>
      -- assert!(self.stack.len() != 0); pc = stack.pop().unwrap()
      match s.stack with
      | [] => .error "assertion failed: stack is empty"
      | ret :: rest => .ok { s with pc := ret, stack := rest }
  | .SubRoutine address =>
      .ok { s with stack := s.pc :: s.stack, pc := address }
  | .StoreDeelayInRegister register =>
      .ok { s with v := upd s.v register s.deelay }
  | .SetDeelayFromRegister register =>
      .ok { s with deelay := s.v register }
  | .SetSoundTimerFromRegister register =>
      .ok { s with sound_timer := s.v register }
  | .AddRegisterToIndex register =>
      -- u16 addition on the index register
      .ok { s with i := (s.i + s.v register) % 65536 }
  | .FillRegisters last_register => do
      let v' ← fillLoop s.ram s.i 0 (last_register + 1) s.v
      .ok { s with v := v', i := (s.i + last_register + 1) % 65536 }
  | .StoreRegistersInMemmory last_register => do
      let ram' ← storeLoop s.v s.i 0 (last_register + 1) s.ram
      .ok { s with ram := ram', i := (s.i + last_register + 1) % 65536 }
  | .StoreRegisterInBCD register => do
      let ram1 ← ramWrite s.ram s.i (s.v register / 100)
      let ram2 ← ramWrite ram1 (s.i + 1) (s.v register % 100 / 10)
      let ram3 ← ramWrite ram2 (s.i + 2) (s.v register % 10)
      .ok { s with ram := ram3 }

/-- Run `exec` inside `run_opcode`: a decoded instruction emits no diagnostic. -/
def execOp (h : Host) (s : Chip8) (instruction : Instruction) :
    Except String (Chip8 × List Diag) :=
  (exec h s instruction).map (fun s' => (s', []))

/-- `Chip8::run_opcode`: classify the 16-bit opcode by its top nibble (and the
sub-selector of the 0/5/8/9/E/F families) and dispatch.  The arms that only
print keep the state and record the diagnostic; the silent `_ => ()` arms of
the 5/8/9 families keep the state and record nothing. -/
def run_opcode (h : Host) (s : Chip8) (opcode : Nat) : Except String (Chip8 × List Diag) :=
  let top := opcode / 4096 % 16
  if top = 0x0 then
    if opcode % 4096 = 0x0E0 then execOp h s .Clear
    else if opcode % 4096 = 0x0EE then execOp h s .Return
    else .ok (s, [Diag.ignored])
  else if top = 0x1 then
    execOp h s (.Jump (opcode % 4096))
  else if top = 0x2 then
    execOp h s (.SubRoutine (opcode % 4096))
  else if top = 0x3 then
    execOp h s (.SkipOnXeqV (opcode / 256 % 16) (opcode % 256))
  else if top = 0x4 then
    execOp h s (.SkipOnXneqV (opcode / 256 % 16) (opcode % 256))
  else if top = 0x5 then
    if opcode % 16 = 0 then execOp h s (.SkipOnXeqY (opcode / 256 % 16) (opcode / 16 % 16))
    else .ok (s, [])
  else if top = 0x6 then
    execOp h s (.LoadNormalRegister (opcode / 256 % 16) (opcode % 256))
  else if top = 0x7 then
    execOp h s (.AddToNormalRegister (opcode / 256 % 16) (opcode % 256))
  else if top = 0x8 then
    let x_register := opcode / 256 % 16
    let y_register := opcode / 16 % 16
    let op := opcode % 16
    if op = 0x0 then execOp h s (.SetXtoY x_register y_register)
    else if op = 0x1 then execOp h s (.SetXtoXorY x_register y_register)
    else if op = 0x2 then execOp h s (.SetXtoXandY x_register y_register)
    else if op = 0x3 then execOp h s (.SetXtoXxorY x_register y_register)
    else if op = 0x4 then execOp h s (.AddYtoX x_register y_register)
    else if op = 0x5 then execOp h s (.SubYfromX x_register y_register)
    else if op = 0x6 then execOp h s (.SetXtoYshiftRightOnce x_register y_register)
    else if op = 0x7 then execOp h s (.SetXtoYMinusX x_register y_register)
    else if op = 0xE then execOp h s (.SetXtoYshiftLeftOnce x_register y_register)
    else .ok (s, [])
  else if top = 0x9 then
    if opcode % 16 = 0 then execOp h s (.SkipOnXneqY (opcode / 256 % 16) (opcode / 16 % 16))
    else .ok (s, [])
  else if top = 0xA then
    execOp h s (.LoadIndexRegister (opcode % 4096))
  else if top = 0xB then
    execOp h s (.JumpByRegister (opcode % 4096))
  else if top = 0xC then
    execOp h s (.LoadRegisterWithRandom (opcode / 256 % 16) (opcode % 256))
  else if top = 0xD then
    execOp h s (.DrawSprite (opcode / 256 % 16) (opcode / 16 % 16) (opcode % 16))
  else if top = 0xE then
    let register := opcode / 256 % 16
    let sub_opcode := opcode % 256
    if sub_opcode = 0xA1 then execOp h s (.SkipNotPressed register)
    else if sub_opcode = 0x9E then execOp h s (.SkipIfPressed register)
    else .ok (s, [Diag.unsupportedKey opcode])
  else if top = 0xF then
    let value := opcode / 256 % 16
    let sub_opcode := opcode % 256
    if sub_opcode = 0x07 then execOp h s (.StoreDeelayInRegister value)
    else if sub_opcode = 0x0A then execOp h s (.WaitUserInput value)
    else if sub_opcode = 0x15 then execOp h s (.SetDeelayFromRegister value)
    else if sub_opcode = 0x18 then execOp h s (.SetSoundTimerFromRegister value)
    else if sub_opcode = 0x1E then execOp h s (.AddRegisterToIndex value)
    else if sub_opcode = 0x29 then execOp h s (.LoadFont value)
    else if sub_opcode = 0x33 then execOp h s (.StoreRegisterInBCD value)
    else if sub_opcode = 0x55 then execOp h s (.StoreRegistersInMemmory value)
    else if sub_opcode = 0x65 then execOp h s (.FillRegisters value)
    else .ok (s, [Diag.unsupportedSub opcode sub_opcode])
  else
    .ok (s, [Diag.unsupported opcode])

/-- `Chip8::start_cycle`: fetch the big-endian opcode at `pc`, advance `pc`
by 2 and dispatch. -/
def start_cycle (h : Host) (s : Chip8) : Except String (Chip8 × List Diag) := do
  let hi ← ramRead s.ram s.pc
  let lo ← ramRead s.ram (s.pc + 1)
  run_opcode h { s with pc := s.pc + 2 } (hi * 256 + lo)

/-- An opcode none of the decode arms of `run_opcode` recognises: an unknown
sub-selector of the 0/5/8/9/E/F families (every top nibble has an arm). -/
def isUnknown (opcode : Nat) : Bool :=
  let top := opcode / 4096 % 16
  if top = 0x0 then
    decide (opcode % 4096 ≠ 0x0E0 ∧ opcode % 4096 ≠ 0x0EE)
  else if top = 0x5 then decide (opcode % 16 ≠ 0)
  else if top = 0x8 then
    decide (opcode % 16 ≠ 0x0 ∧ opcode % 16 ≠ 0x1 ∧ opcode % 16 ≠ 0x2 ∧ opcode % 16 ≠ 0x3 ∧
            opcode % 16 ≠ 0x4 ∧ opcode % 16 ≠ 0x5 ∧ opcode % 16 ≠ 0x6 ∧ opcode % 16 ≠ 0x7 ∧
            opcode % 16 ≠ 0xE)
  else if top = 0x9 then decide (opcode % 16 ≠ 0)
  else if top = 0xE then decide (opcode % 256 ≠ 0x9E ∧ opcode % 256 ≠ 0xA1)
  else if top = 0xF then
    decide (opcode % 256 ≠ 0x07 ∧ opcode % 256 ≠ 0x0A ∧ opcode % 256 ≠ 0x15 ∧
            opcode % 256 ≠ 0x18 ∧ opcode % 256 ≠ 0x1E ∧ opcode % 256 ≠ 0x29 ∧
            opcode % 256 ≠ 0x33 ∧ opcode % 256 ≠ 0x55 ∧ opcode % 256 ≠ 0x65)
  else false

/-- An all-zero machine state used as the base of concrete test states. -/
def zeroState : Chip8 :=
  { v := fun _ => 0, i := 0, pc := 0x200, ram := fun _ => 0, deelay := 0,
    sound_timer := 0, screen := fun _ _ => 0, screen_update := false, stack := [] }

/-- A host with no keys held, no key events and random source 0. -/
def host0 : Host :=
  { is_key_down := fun _ => false, keys_pressed := [], rand := 0 }

theorem upd_self (f : Nat → Nat) (k x : Nat) : upd f k x k = x := by simp [upd]

theorem upd_ne (f : Nat → Nat) (k x : Nat) {n : Nat} (h : n ≠ k) : upd f k x n = f n := by
  simp [upd, h]

theorem land_shiftLeft_ne_zero (sd k : Nat) :
    (sd &&& (1 <<< k) ≠ 0) ↔ Nat.testBit sd k := by
  rw [Nat.shiftLeft_eq, one_mul, Nat.and_two_pow]
  cases h : Nat.testBit sd k <;> simp [h]

/-- C1 (counterexample): the sound timer is nonzero (value 1) but `tick` does
not decrement it, contradicting the claim that each nonzero counter is
decremented by exactly 1. -/
theorem tick_claim_counterexample :
    ({ zeroState with sound_timer := 1 } : Chip8).sound_timer ≠ 0 ∧
    (tick { zeroState with sound_timer := 1 }).sound_timer ≠
      ({ zeroState with sound_timer := 1 } : Chip8).sound_timer - 1 ∧
    (tick { zeroState with sound_timer := 1 }).sound_timer = 1 :=
  ⟨by decide, by decide, by decide⟩

/-- C1 (amended): `tick` decrements the delay timer by exactly 1 when it is
nonzero and leaves it at zero when zero; the sound timer is decremented by
exactly 1 only when it is greater than 1 and is left unchanged when at most 1;
neither counter ever increases (and, being `u8`/`Nat`, never goes below zero). -/
theorem tick_spec (s : Chip8) :
    (0 < s.deelay → (tick s).deelay = s.deelay - 1) ∧
    (s.deelay = 0 → (tick s).deelay = 0) ∧
    (1 < s.sound_timer → (tick s).sound_timer = s.sound_timer - 1) ∧
    (s.sound_timer ≤ 1 → (tick s).sound_timer = s.sound_timer) ∧
    (tick s).deelay ≤ s.deelay ∧ (tick s).sound_timer ≤ s.sound_timer := by
  have hd : (tick s).deelay =
      if s.deelay > 0 then (if s.deelay < 1 then 0 else s.deelay - 1) else s.deelay := rfl
  have hs : (tick s).sound_timer =
      if s.sound_timer > 1 then (if s.sound_timer < 1 then 0 else s.sound_timer - 1)
      else s.sound_timer := rfl
  rw [hd, hs]
  split_ifs <;> omega

/-- C1 witness for `tick_spec` at a concrete state. -/
theorem tick_spec_witness :
    (tick { zeroState with deelay := 3, sound_timer := 2 }).deelay = 3 - 1 ∧
    (tick { zeroState with deelay := 3, sound_timer := 2 }).sound_timer = 2 - 1 := by
  have h := tick_spec { zeroState with deelay := 3, sound_timer := 2 }
  exact ⟨h.1 (by decide), h.2.2.1 (by decide)⟩

/-- C6: add-register-to-register (8XY4) stores `(a+b) mod 256` in register X
and sets the flags register to 1 iff `a+b > 255`, else 0 (for X distinct from
the flags register 15; the X = 15 interaction is the subject of C10). -/
theorem addYtoX_spec (h : Host) (s : Chip8) (x y : Nat)
    (hx : x < 16) (hy : y < 16) (hxf : x ≠ 15)
    (ha : s.v x < 256) (hb : s.v y < 256) :
    ∃ s', exec h s (.AddYtoX x y) = .ok s' ∧
      s'.v x = (s.v x + s.v y) % 256 ∧
      s'.v 15 = (if 255 < s.v x + s.v y then 1 else 0) := by
  refine ⟨_, rfl, ?_, ?_⟩
  · simp [upd, hxf]
  · simp [upd]

/-- C6 witness: 250 + 10 carries, result 4. -/
theorem addYtoX_spec_witness :
    ∃ s', exec host0 { zeroState with v := upd (upd zeroState.v 0 250) 1 10 }
        (.AddYtoX 0 1) = .ok s' ∧ s'.v 0 = 4 ∧ s'.v 15 = 1 := by
  obtain ⟨s', he, h1, h2⟩ :=
    addYtoX_spec host0 { zeroState with v := upd (upd zeroState.v 0 250) 1 10 } 0 1
      (by decide) (by decide) (by decide) (by decide) (by decide)
  exact ⟨s', he, by simpa using h1, by simpa using h2⟩

/-- C7: subtract-register-from-register, both orderings (8XY5 computes
`v[x] - v[y]`, 8XY7 computes `v[y] - v[x]`), stores the 8-bit wraparound
difference in register X and sets the flags register to 0 iff the minuend is
smaller than the subtrahend (borrow), else 1 (for X distinct from the flags
register 15; the X = 15 interaction is the subject of C10). -/
theorem sub_spec (h : Host) (s : Chip8) (x y : Nat)
    (hx : x < 16) (hy : y < 16) (hxf : x ≠ 15)
    (ha : s.v x < 256) (hb : s.v y < 256) :
    (∃ s', exec h s (.SubYfromX x y) = .ok s' ∧
       (s'.v x : Int) = ((s.v x : Int) - (s.v y : Int)) % 256 ∧
       s'.v 15 = (if s.v x < s.v y then 0 else 1)) ∧
    (∃ s', exec h s (.SetXtoYMinusX x y) = .ok s' ∧
       (s'.v x : Int) = ((s.v y : Int) - (s.v x : Int)) % 256 ∧
       s'.v 15 = (if s.v y < s.v x then 0 else 1)) := by
  constructor
  · refine ⟨_, rfl, ?_, ?_⟩
    · have : upd (upd s.v x ((s.v x + 256 - s.v y) % 256)) 15
          (if s.v x < s.v y then 0 else 1) x = (s.v x + 256 - s.v y) % 256 := by
        simp [upd, hxf]
      simp only [this]
      omega
    · simp [upd]
  · refine ⟨_, rfl, ?_, ?_⟩
    · have : upd (upd s.v x ((s.v y + 256 - s.v x) % 256)) 15
          (if s.v y < s.v x then 0 else 1) x = (s.v y + 256 - s.v x) % 256 := by
        simp [upd, hxf]
      simp only [this]
      omega
    · simp [upd]

/-- C7 witness: 5 - 7 wraps to 254 with borrow flag 0; 7 - 5 = 2 with flag 1. -/
theorem sub_spec_witness :
    (∃ s', exec host0 { zeroState with v := upd (upd zeroState.v 0 5) 1 7 }
        (.SubYfromX 0 1) = .ok s' ∧ s'.v 0 = 254 ∧ s'.v 15 = 0) ∧
    (∃ s', exec host0 { zeroState with v := upd (upd zeroState.v 0 5) 1 7 }
        (.SetXtoYMinusX 0 1) = .ok s' ∧ s'.v 0 = 2 ∧ s'.v 15 = 1) := by
  obtain ⟨⟨s1, he1, ha1, hf1⟩, ⟨s2, he2, ha2, hf2⟩⟩ :=
    sub_spec host0 { zeroState with v := upd (upd zeroState.v 0 5) 1 7 } 0 1
      (by decide) (by decide) (by decide) (by decide) (by decide)
  refine ⟨⟨s1, he1, ?_, by simpa using hf1⟩, ⟨s2, he2, ?_, by simpa using hf2⟩⟩
  · have := ha1; simp [upd] at this ⊢; omega
  · have := ha2; simp [upd] at this ⊢; omega

/-- C5 (counterexample): for shift-right 8XY6 with destination X = 15 and
source value 3, the claim requires register 15 (both the destination and the
flags register) to end as `3 >> 1 = 1` and as bit 0 of the source, also 1;
the code leaves register 15 = 0, because the flag written into `v[15]` is
itself shifted right afterwards. -/
theorem shift_claim_counterexample :
    ∃ s', exec host0 { zeroState with v := upd zeroState.v 0 3 }
        (.SetXtoYshiftRightOnce 15 0) = .ok s' ∧
      ({ zeroState with v := upd zeroState.v 0 3 } : Chip8).v 0 = 3 ∧
      s'.v 15 ≠ 3 / 2 ∧ s'.v 15 ≠ 3 % 2 := by
  refine ⟨_, rfl, by decide, by decide, by decide⟩

/-- C5 (amended): for X ≠ 15, shift-right (8XY6) sets register X to
`v[y] >> 1` and the flags register to the pre-shift bit 0 of the source, and
shift-left (8XYE) sets register X to `(v[y] << 1) mod 256` and the flags
register to the pre-shift bit 7; when X = 15, the flag value written into
register 15 is itself shifted, leaving 0 for shift-right and `2 * bit7` for
shift-left. -/
theorem shift_spec (h : Host) (s : Chip8) (x y : Nat)
    (hx : x < 16) (hy : y < 16) (hb : s.v y < 256) :
    (∃ s', exec h s (.SetXtoYshiftRightOnce x y) = .ok s' ∧
       (x ≠ 15 → s'.v x = s.v y / 2 ∧ s'.v 15 = s.v y % 2) ∧
       (x = 15 → s'.v 15 = 0)) ∧
    (∃ s', exec h s (.SetXtoYshiftLeftOnce x y) = .ok s' ∧
       (x ≠ 15 → s'.v x = s.v y * 2 % 256 ∧ s'.v 15 = s.v y / 128) ∧
       (x = 15 → s'.v 15 = s.v y / 128 * 2)) := by
  have h128 : s.v y / 128 < 2 := by omega
  constructor
  · refine ⟨_, rfl, ?_, ?_⟩
    · intro hxf
      constructor
      · simp [upd, hxf, Ne.symm hxf, Nat.and_one_is_mod]
      · simp [upd, hxf, Ne.symm hxf, Nat.and_one_is_mod]
    · intro hxf
      subst hxf
      simp [upd, Nat.and_one_is_mod]
  · refine ⟨_, rfl, ?_, ?_⟩
    · intro hxf
      constructor
      · simp [upd, hxf, Ne.symm hxf]
      · simp [upd, hxf, Ne.symm hxf, Nat.shiftRight_eq_div_pow, Nat.and_one_is_mod]
        omega
    · intro hxf
      subst hxf
      simp [upd, Nat.shiftRight_eq_div_pow, Nat.and_one_is_mod]
      rw [Nat.mod_eq_of_lt h128]
      exact Nat.mod_eq_of_lt (by omega)

/-- C5 witness for `shift_spec`: source 0xFF, destination register 0. -/
theorem shift_spec_witness :
    (∃ s', exec host0 { zeroState with v := upd zeroState.v 1 0xFF }
        (.SetXtoYshiftRightOnce 0 1) = .ok s' ∧ s'.v 0 = 0x7F ∧ s'.v 15 = 1) ∧
    (∃ s', exec host0 { zeroState with v := upd zeroState.v 1 0xFF }
        (.SetXtoYshiftLeftOnce 0 1) = .ok s' ∧ s'.v 0 = 0xFE ∧ s'.v 15 = 1) := by
  obtain ⟨⟨s1, he1, h1, -⟩, ⟨s2, he2, h2, -⟩⟩ :=
    shift_spec host0 { zeroState with v := upd zeroState.v 1 0xFF } 0 1
      (by decide) (by decide) (by decide)
  obtain ⟨h1a, h1b⟩ := h1 (by decide)
  obtain ⟨h2a, h2b⟩ := h2 (by decide)
  exact ⟨⟨s1, he1, by simpa using h1a, by simpa using h1b⟩,
         ⟨s2, he2, by simpa using h2a, by simpa using h2b⟩⟩

/-- C10: for 8XY4, 8XY5 and 8XY7 the wraparound result is written into
register X first and the flags register 15 is overwritten afterwards, so for
X = 15 the final value of register 15 is the 0/1 flag (not the arithmetic
result), and for X ≠ 15 register X holds the result while register 15 holds
the flag. -/
theorem arith_flag_overwrite (h : Host) (s : Chip8) (x y : Nat)
    (hx : x < 16) (hy : y < 16) (ha : s.v x < 256) (hb : s.v y < 256) :
    (∃ s', exec h s (.AddYtoX x y) = .ok s' ∧
       s'.v 15 = (if 255 < s.v x + s.v y then 1 else 0) ∧
       (x ≠ 15 → s'.v x = (s.v x + s.v y) % 256)) ∧
    (∃ s', exec h s (.SubYfromX x y) = .ok s' ∧
       s'.v 15 = (if s.v x < s.v y then 0 else 1) ∧
       (x ≠ 15 → s'.v x = (s.v x + 256 - s.v y) % 256)) ∧
    (∃ s', exec h s (.SetXtoYMinusX x y) = .ok s' ∧
       s'.v 15 = (if s.v y < s.v x then 0 else 1) ∧
       (x ≠ 15 → s'.v x = (s.v y + 256 - s.v x) % 256)) := by
  refine ⟨⟨_, rfl, by simp [upd], ?_⟩, ⟨_, rfl, by simp [upd], ?_⟩,
         ⟨_, rfl, by simp [upd], ?_⟩⟩ <;>
    · intro hxf
      simp [upd, hxf, Ne.symm hxf]

/-- C10 witness: X = 15 for the add: `v[15] = 200`, `v[1] = 100`, carry, so
register 15 ends as the flag 1, not as the wraparound sum 44. -/
theorem arith_flag_overwrite_witness :
    ∃ s', exec host0 { zeroState with v := upd (upd zeroState.v 15 200) 1 100 }
        (.AddYtoX 15 1) = .ok s' ∧ s'.v 15 = 1 := by
  obtain ⟨⟨s1, he1, hf1, -⟩, -, -⟩ :=
    arith_flag_overwrite host0 { zeroState with v := upd (upd zeroState.v 15 200) 1 100 }
      15 1 (by decide) (by decide) (by decide) (by decide)
  exact ⟨s1, he1, by simpa using hf1⟩

theorem run_opcode_unknown (h : Host) (s : Chip8) (op : Nat) (hop : op < 65536)
    (hu : isUnknown op = true) :
    ∃ d, run_opcode h s op = .ok (s, d) ∧
      (op / 4096 = 0x0 → d = [Diag.ignored]) ∧
      (op / 4096 = 0x5 ∨ op / 4096 = 0x8 ∨ op / 4096 = 0x9 → d = []) ∧
      (op / 4096 = 0xE → d = [Diag.unsupportedKey op]) ∧
      (op / 4096 = 0xF → d = [Diag.unsupportedSub op (op % 256)]) := by
  have h16 : op / 4096 % 16 = op / 4096 := Nat.mod_eq_of_lt (by omega)
  have htop : op / 4096 = 0 ∨ op / 4096 = 1 ∨ op / 4096 = 2 ∨ op / 4096 = 3 ∨
      op / 4096 = 4 ∨ op / 4096 = 5 ∨ op / 4096 = 6 ∨ op / 4096 = 7 ∨ op / 4096 = 8 ∨
      op / 4096 = 9 ∨ op / 4096 = 10 ∨ op / 4096 = 11 ∨ op / 4096 = 12 ∨ op / 4096 = 13 ∨
      op / 4096 = 14 ∨ op / 4096 = 15 := by omega
  rcases htop with ht|ht|ht|ht|ht|ht|ht|ht|ht|ht|ht|ht|ht|ht|ht|ht
  · obtain ⟨h1, h2⟩ : op % 4096 ≠ 0x0E0 ∧ op % 4096 ≠ 0x0EE := by
      simpa [isUnknown, h16, ht] using hu
    exact ⟨[Diag.ignored], by simp [run_opcode, h16, ht, h1, h2], fun _ => rfl,
      by simp [ht], by simp [ht], by simp [ht]⟩
  · simp [isUnknown, h16, ht] at hu
  · simp [isUnknown, h16, ht] at hu
  · simp [isUnknown, h16, ht] at hu
  · simp [isUnknown, h16, ht] at hu
  · have h1 : op % 16 ≠ 0 := by simpa [isUnknown, h16, ht] using hu
    exact ⟨[], by simp [run_opcode, h16, ht, h1], by simp [ht], fun _ => rfl,
      by simp [ht], by simp [ht]⟩
  · simp [isUnknown, h16, ht] at hu
  · simp [isUnknown, h16, ht] at hu
  · obtain ⟨h0, h1, h2, h3, h4, h5, h6, h7, hE⟩ :
        op % 16 ≠ 0x0 ∧ op % 16 ≠ 0x1 ∧ op % 16 ≠ 0x2 ∧ op % 16 ≠ 0x3 ∧ op % 16 ≠ 0x4 ∧
        op % 16 ≠ 0x5 ∧ op % 16 ≠ 0x6 ∧ op % 16 ≠ 0x7 ∧ op % 16 ≠ 0xE := by
      simpa [isUnknown, h16, ht] using hu
    exact ⟨[], by simp [run_opcode, h16, ht, h0, h1, h2, h3, h4, h5, h6, h7, hE],
      by simp [ht], fun _ => rfl, by simp [ht], by simp [ht]⟩
  · have h1 : op % 16 ≠ 0 := by simpa [isUnknown, h16, ht] using hu
    exact ⟨[], by simp [run_opcode, h16, ht, h1], by simp [ht], fun _ => rfl,
      by simp [ht], by simp [ht]⟩
  · simp [isUnknown, h16, ht] at hu
  · simp [isUnknown, h16, ht] at hu
  · simp [isUnknown, h16, ht] at hu
  · simp [isUnknown, h16, ht] at hu
  · obtain ⟨h1, h2⟩ : op % 256 ≠ 0x9E ∧ op % 256 ≠ 0xA1 := by
      simpa [isUnknown, h16, ht] using hu
    exact ⟨[Diag.unsupportedKey op], by simp [run_opcode, h16, ht, h1, h2],
      by simp [ht], by simp [ht], fun _ => rfl, by simp [ht]⟩
  · obtain ⟨h1, h2, h3, h4, h5, h6, h7, h8, h9⟩ :
        op % 256 ≠ 0x07 ∧ op % 256 ≠ 0x0A ∧ op % 256 ≠ 0x15 ∧ op % 256 ≠ 0x18 ∧
        op % 256 ≠ 0x1E ∧ op % 256 ≠ 0x29 ∧ op % 256 ≠ 0x33 ∧ op % 256 ≠ 0x55 ∧
        op % 256 ≠ 0x65 := by
      simpa [isUnknown, h16, ht] using hu
    exact ⟨[Diag.unsupportedSub op (op % 256)],
      by simp [run_opcode, h16, ht, h1, h2, h3, h4, h5, h6, h7, h8, h9],
      by simp [ht], by simp [ht], by simp [ht], fun _ => rfl⟩

/-- C3 (counterexample): opcode 0x8008 does not decode (8XYk needs k in
0..7 or E), and indeed the state is unchanged and the run is not fatal, but
the empty diagnostic list shows it is silently swallowed (the `_ => ()` arm),
contradicting the claim that every unknown opcode is reported. -/
theorem unknown_opcode_silent_counterexample :
    isUnknown 0x8008 = true ∧
    run_opcode host0 zeroState 0x8008 = .ok (zeroState, ([] : List Diag)) :=
  ⟨by decide, rfl⟩

/-- C3 (amended): executing an opcode that does not decode leaves the machine
state unchanged except the already-advanced program counter and is never
fatal; unknown opcodes of the 0x0, 0xE and 0xF families are reported on a
diagnostic channel, while a mismatched trailing selector in the 0x5, 0x8 and
0x9 families is silently ignored (no diagnostic). -/
theorem unknown_opcode_recoverable (h : Host) (s : Chip8)
    (hpc : s.pc + 1 < 4096) (hhi : s.ram s.pc < 256) (hlo : s.ram (s.pc + 1) < 256)
    (hu : isUnknown (s.ram s.pc * 256 + s.ram (s.pc + 1)) = true) :
    ∃ d, start_cycle h s = .ok ({ s with pc := s.pc + 2 }, d) ∧
      ((s.ram s.pc * 256 + s.ram (s.pc + 1)) / 4096 = 0x0 ∨
       (s.ram s.pc * 256 + s.ram (s.pc + 1)) / 4096 = 0xE ∨
       (s.ram s.pc * 256 + s.ram (s.pc + 1)) / 4096 = 0xF → d ≠ []) ∧
      ((s.ram s.pc * 256 + s.ram (s.pc + 1)) / 4096 = 0x5 ∨
       (s.ram s.pc * 256 + s.ram (s.pc + 1)) / 4096 = 0x8 ∨
       (s.ram s.pc * 256 + s.ram (s.pc + 1)) / 4096 = 0x9 → d = []) := by
  have hop : s.ram s.pc * 256 + s.ram (s.pc + 1) < 65536 := by omega
  obtain ⟨d, hrun, h0, h589, hE, hF⟩ :=
    run_opcode_unknown h { s with pc := s.pc + 2 } _ hop hu
  have h1 : s.pc < 4096 := by omega
  refine ⟨d, ?_, ?_, h589⟩
  · simp [start_cycle, ramRead, h1, hpc]
    exact hrun
  · rintro (ht | ht | ht)
    · rw [h0 ht]; simp
    · rw [hE ht]; simp
    · rw [hF ht]; simp

/-- C3 witness for `unknown_opcode_recoverable`: the fetched opcode 0x0123 is
unknown and reported. -/
theorem unknown_opcode_recoverable_witness :
    ∃ d, start_cycle host0
        { zeroState with ram := upd (upd zeroState.ram 0x200 0x01) 0x201 0x23 } =
      .ok ({ { zeroState with ram := upd (upd zeroState.ram 0x200 0x01) 0x201 0x23 } with
             pc := ({ zeroState with
                      ram := upd (upd zeroState.ram 0x200 0x01) 0x201 0x23 } : Chip8).pc + 2 },
           d) ∧ d ≠ [] := by
  obtain ⟨d, hok, hrep, -⟩ := unknown_opcode_recoverable host0
    { zeroState with ram := upd (upd zeroState.ram 0x200 0x01) 0x201 0x23 }
    (by decide) (by decide) (by decide) (by decide)
  exact ⟨d, hok, hrep (by decide)⟩

/-- C8: return-from-subroutine (00EE) with an empty call stack hits the
`assert!` and is fatal (`Except.error`, distinguishable from the recoverable
unknown-opcode outcome, which is `Except.ok`); with a non-empty stack it pops
the top return address into the program counter. -/
theorem return_spec (h : Host) (s : Chip8) :
    (s.stack = [] → run_opcode h s 0x00EE = .error "assertion failed: stack is empty") ∧
    (∀ r t, s.stack = r :: t →
        run_opcode h s 0x00EE = .ok ({ s with pc := r, stack := t }, [])) ∧
    (s.stack = [] → ∀ op, op < 65536 → isUnknown op = true →
        run_opcode h s op ≠ run_opcode h s 0x00EE) := by
  have hdec : run_opcode h s 0x00EE = execOp h s .Return := rfl
  refine ⟨?_, ?_, ?_⟩
  · intro hs
    rw [hdec]
    simp [execOp, exec, hs, Except.map]
  · intro r t hs
    rw [hdec]
    simp [execOp, exec, hs, Except.map]
  · intro hs op hop hu
    obtain ⟨d, hrun, -⟩ := run_opcode_unknown h s op hop hu
    rw [hrun, hdec]
    simp [execOp, exec, hs, Except.map]

/-- C8 witness: a stack holding return address 0x300 is popped into `pc`;
the empty stack is fatal. -/
theorem return_spec_witness :
    run_opcode host0 { zeroState with stack := [0x300] } 0x00EE =
      .ok ({ zeroState with pc := 0x300, stack := ([] : List Nat) }, ([] : List Diag)) ∧
    run_opcode host0 zeroState 0x00EE = .error "assertion failed: stack is empty" :=
  ⟨(return_spec host0 { zeroState with stack := [0x300] }).2.1 0x300 [] rfl,
   (return_spec host0 zeroState).1 rfl⟩

theorem except_bind_ok {α β : Type} (a : α) (f : α → Except String β) :
    (Except.ok a >>= f) = f a := rfl

theorem except_bind_error {α β : Type} (e : String) (f : α → Except String β) :
    ((Except.error e : Except String α) >>= f) = Except.error e := rfl

theorem drawRows_oob (ram : Nat → Nat) (i ys xs : Nat) :
    ∀ k y p y', y ≤ y' → y' < y + k → 4096 ≤ i + y' →
      ∃ m, drawRows ram i ys xs y k p = .error m := by
  intro k
  induction k with
  | zero => intro y p y' h1 h2 h3; omega
  | succ k ih =>
    intro y p y' h1 h2 h3
    by_cases hb : i + y < 4096
    · have hy : y' ≠ y := by omega
      obtain ⟨m, hm⟩ := ih (y + 1) (drawRowAux (ram (i + y)) ys xs y 0 8 p) y'
        (by omega) (by omega) h3
      exact ⟨m, by simp [drawRows, ramRead, hb, except_bind_ok, hm]⟩
    · exact ⟨"ram index out of bounds", by simp [drawRows, ramRead, hb, except_bind_error]⟩

theorem storeLoop_oob (v : Nat → Nat) (i : Nat) :
    ∀ k r ram r', r ≤ r' → r' < r + k → 4096 ≤ i + r' →
      ∃ m, storeLoop v i r k ram = .error m := by
  intro k
  induction k with
  | zero => intro r ram r' h1 h2 h3; omega
  | succ k ih =>
    intro r ram r' h1 h2 h3
    by_cases hb : i + r < 4096
    · obtain ⟨m, hm⟩ := ih (r + 1) (upd ram (i + r) (v r)) r' (by omega) (by omega) h3
      exact ⟨m, by simp [storeLoop, ramWrite, hb, except_bind_ok, hm]⟩
    · exact ⟨"ram index out of bounds", by simp [storeLoop, ramWrite, hb, except_bind_error]⟩

theorem fillLoop_oob (ram : Nat → Nat) (i : Nat) :
    ∀ k r v r', r ≤ r' → r' < r + k → 4096 ≤ i + r' →
      ∃ m, fillLoop ram i r k v = .error m := by
  intro k
  induction k with
  | zero => intro r v r' h1 h2 h3; omega
  | succ k ih =>
    intro r v r' h1 h2 h3
    by_cases hb : i + r < 4096
    · obtain ⟨m, hm⟩ := ih (r + 1) (upd v r (ram (i + r))) r' (by omega) (by omega) h3
      exact ⟨m, by simp [fillLoop, ramRead, hb, except_bind_ok, hm]⟩
    · exact ⟨"ram index out of bounds", by simp [fillLoop, ramRead, hb, except_bind_error]⟩

/-- C2: every ram index computed from the index register by the sprite-draw,
BCD-store and bulk store/load operations is checked against the 4096-byte
bound before the cell is accessed (in the source this is Rust's checked array
indexing); an index at or beyond the top of memory makes the operation take
the fatal bounds-panic path (`Except.error`) instead of performing any
out-of-range memory access. -/
theorem memory_bound_checked (h : Host) (s : Chip8) (rx ry n reg last y : Nat) :
    (4096 ≤ s.i + 2 → ∃ m, exec h s (.StoreRegisterInBCD reg) = .error m) ∧
    (y < n → 4096 ≤ s.i + y → ∃ m, exec h s (.DrawSprite rx ry n) = .error m) ∧
    (4096 ≤ s.i + last → ∃ m, exec h s (.StoreRegistersInMemmory last) = .error m) ∧
    (4096 ≤ s.i + last → ∃ m, exec h s (.FillRegisters last) = .error m) := by
  refine ⟨?_, ?_, ?_, ?_⟩
  · intro hoob
    by_cases h0 : s.i < 4096
    · by_cases h1 : s.i + 1 < 4096
      · have h2 : ¬ s.i + 2 < 4096 := by omega
        exact ⟨"ram index out of bounds", by simp [exec, ramWrite, h0, h1, h2, except_bind_ok, except_bind_error]⟩
      · exact ⟨"ram index out of bounds", by simp [exec, ramWrite, h0, h1, except_bind_ok, except_bind_error]⟩
    · exact ⟨"ram index out of bounds", by simp [exec, ramWrite, h0, except_bind_ok, except_bind_error]⟩
  · intro hy hoob
    by_cases hn : n ≤ 0xF
    · obtain ⟨m, hm⟩ := drawRows_oob s.ram s.i (s.v ry % 32) (s.v rx % 64) n 0
        (s.screen, 0) y (by omega) (by omega) hoob
      exact ⟨m, by simp [exec, hn, hm]⟩
    · exact ⟨"assertion failed: num_bytes <= 0xF", by simp [exec, hn]⟩
  · intro hoob
    obtain ⟨m, hm⟩ := storeLoop_oob s.v s.i (last + 1) 0 s.ram last (by omega) (by omega) hoob
    exact ⟨m, by simp [exec, hm, except_bind_error]⟩
  · intro hoob
    obtain ⟨m, hm⟩ := fillLoop_oob s.ram s.i (last + 1) 0 s.v last (by omega) (by omega) hoob
    exact ⟨m, by simp [exec, hm, except_bind_error]⟩

/-- C2 witness: with the index register at 4094 the BCD store would touch
cells 4094, 4095 and 4096; the computed index 4096 fails the bound check and
the operation is fatal before any out-of-range access.  Similarly for a
sprite row at 4096 and a 16-register bulk store/load based at 4090. -/
theorem memory_bound_checked_witness :
    (∃ m, exec host0 { zeroState with i := 4094 } (.StoreRegisterInBCD 0) = .error m) ∧
    (∃ m, exec host0 { zeroState with i := 4096 } (.DrawSprite 0 0 1) = .error m) ∧
    (∃ m, exec host0 { zeroState with i := 4090 } (.StoreRegistersInMemmory 15) = .error m) ∧
    (∃ m, exec host0 { zeroState with i := 4090 } (.FillRegisters 15) = .error m) := by
  obtain ⟨hbcd, -, -, -⟩ :=
    memory_bound_checked host0 { zeroState with i := 4094 } 0 0 1 0 15 0
  obtain ⟨-, hdraw, -, -⟩ :=
    memory_bound_checked host0 { zeroState with i := 4096 } 0 0 1 0 15 0
  obtain ⟨-, -, hstore, hfill⟩ :=
    memory_bound_checked host0 { zeroState with i := 4090 } 0 0 1 0 15 0
  exact ⟨hbcd (by decide), hdraw (by decide) (by decide),
         hstore (by decide), hfill (by decide)⟩

theorem fillLoop_ok (ram : Nat → Nat) (i : Nat) :
    ∀ k r v, (∀ r', r ≤ r' → r' < r + k → i + r' < 4096) →
      ∃ v', fillLoop ram i r k v = .ok v' ∧
        ∀ j, v' j = if r ≤ j ∧ j < r + k then ram (i + j) else v j := by
  intro k
  induction k with
  | zero =>
    intro r v _
    exact ⟨v, rfl, fun j => by rw [if_neg (by omega)]⟩
  | succ k ih =>
    intro r v hb
    have hr : i + r < 4096 := hb r (by omega) (by omega)
    obtain ⟨v', hv', hj⟩ := ih (r + 1) (upd v r (ram (i + r)))
      (fun r' h1 h2 => hb r' (by omega) (by omega))
    refine ⟨v', by simp [fillLoop, ramRead, hr, except_bind_ok, hv'], fun j => ?_⟩
    rw [hj j]
    by_cases hj1 : r + 1 ≤ j ∧ j < r + 1 + k
    · rw [if_pos hj1, if_pos (by omega)]
    · rw [if_neg hj1]
      by_cases hj2 : j = r
      · subst hj2
        rw [if_pos (by omega), upd_self]
      · rw [upd_ne _ _ _ hj2, if_neg (by omega)]

theorem storeLoop_ok (v : Nat → Nat) (i : Nat) :
    ∀ k r ram, (∀ r', r ≤ r' → r' < r + k → i + r' < 4096) →
      ∃ ram', storeLoop v i r k ram = .ok ram' ∧
        ∀ a, ram' a = if i + r ≤ a ∧ a < i + r + k then v (a - i) else ram a := by
  intro k
  induction k with
  | zero =>
    intro r ram _
    exact ⟨ram, rfl, fun a => by rw [if_neg (by omega)]⟩
  | succ k ih =>
    intro r ram hb
    have hr : i + r < 4096 := hb r (by omega) (by omega)
    obtain ⟨ram', hram', ha⟩ := ih (r + 1) (upd ram (i + r) (v r))
      (fun r' h1 h2 => hb r' (by omega) (by omega))
    refine ⟨ram', by simp [storeLoop, ramWrite, hr, except_bind_ok, hram'], fun a => ?_⟩
    rw [ha a]
    by_cases ha1 : i + (r + 1) ≤ a ∧ a < i + (r + 1) + k
    · rw [if_pos ha1, if_pos (by omega)]
    · rw [if_neg ha1]
      by_cases ha2 : a = i + r
      · subst ha2
        rw [if_pos (by omega), upd_self]
        congr 1
        omega
      · rw [upd_ne _ _ _ ha2, if_neg (by omega)]

/-- C9: with `I + N` in memory bounds, bulk-store (FX55) copies registers
`0..=N` into memory cells `I..I+N` (leaving all other memory and all
registers unchanged), bulk-load (FX65) copies memory cells `I..I+N` into
registers `0..=N` (leaving higher registers and memory unchanged), and both
afterwards advance the index register by `N+1`. -/
theorem bulk_transfer_spec (h : Host) (s : Chip8) (last : Nat)
    (hlast : last ≤ 15) (hbound : s.i + last < 4096) :
    (∃ s', exec h s (.StoreRegistersInMemmory last) = .ok s' ∧
       (∀ j, j ≤ last → s'.ram (s.i + j) = s.v j) ∧
       (∀ a, a < s.i ∨ s.i + last < a → s'.ram a = s.ram a) ∧
       s'.i = s.i + last + 1 ∧ s'.v = s.v ∧ s'.pc = s.pc ∧
       s'.screen = s.screen ∧ s'.stack = s.stack) ∧
    (∃ s', exec h s (.FillRegisters last) = .ok s' ∧
       (∀ j, j ≤ last → s'.v j = s.ram (s.i + j)) ∧
       (∀ j, last < j → s'.v j = s.v j) ∧
       s'.i = s.i + last + 1 ∧ s'.ram = s.ram ∧ s'.pc = s.pc ∧
       s'.screen = s.screen ∧ s'.stack = s.stack) := by
  have hmod : (s.i + last + 1) % 65536 = s.i + last + 1 := Nat.mod_eq_of_lt (by omega)
  constructor
  · obtain ⟨ram', hram', ha⟩ := storeLoop_ok s.v s.i (last + 1) 0 s.ram
      (fun r' h1 h2 => by omega)
    refine ⟨{ s with ram := ram', i := (s.i + last + 1) % 65536 },
      by simp [exec, except_bind_ok, hram'], fun j hj => ?_, fun a hrange => ?_,
      hmod, rfl, rfl, rfl, rfl⟩
    · show ram' (s.i + j) = s.v j
      rw [ha (s.i + j), if_pos (by omega)]
      congr 1
      omega
    · show ram' a = s.ram a
      rw [ha a, if_neg (by omega)]
  · obtain ⟨v', hv', hj⟩ := fillLoop_ok s.ram s.i (last + 1) 0 s.v
      (fun r' h1 h2 => by omega)
    refine ⟨{ s with v := v', i := (s.i + last + 1) % 65536 },
      by simp [exec, except_bind_ok, hv'], fun j hjle => ?_, fun j hjgt => ?_,
      hmod, rfl, rfl, rfl, rfl⟩
    · show v' j = s.ram (s.i + j)
      rw [hj j, if_pos (by omega)]
    · show v' j = s.v j
      rw [hj j, if_neg (by omega)]

/-- C9 witness: round trip of registers 0..=10 at base address 0xABC; the
index register advances by 11 in both directions. -/
theorem bulk_transfer_spec_witness :
    (∃ s', exec host0 { zeroState with i := 0xABC, v := fun j => if j ≤ 10 then 11 - j else 0 } (.StoreRegistersInMemmory 10) = .ok s' ∧ s'.ram (0xABC + 4) = 7 ∧ s'.i = 0xABC + 10 + 1) ∧
    (∃ s', exec host0 { zeroState with i := 0xABC, ram := fun a => if 0xABC ≤ a ∧ a ≤ 0xABC + 10 then 11 - (a - 0xABC) else 0 } (.FillRegisters 10) = .ok s' ∧ s'.v 4 = 7 ∧ s'.i = 0xABC + 10 + 1) := by
  constructor
  · obtain ⟨⟨s', hok, hmem, -, hi, -⟩, -⟩ := bulk_transfer_spec host0
      { zeroState with i := 0xABC, v := fun j => if j ≤ 10 then 11 - j else 0 } 10
      (by decide) (by decide)
    refine ⟨s', hok, ?_, hi⟩
    have := hmem 4 (by decide)
    simpa using this
  · obtain ⟨-, ⟨s', hok, hreg, -, hi, -⟩⟩ := bulk_transfer_spec host0
      { zeroState with i := 0xABC, ram := fun a => if 0xABC ≤ a ∧ a ≤ 0xABC + 10 then 11 - (a - 0xABC) else 0 } 10
      (by decide) (by decide)
    refine ⟨s', hok, ?_, hi⟩
    have := hreg 4 (by decide)
    simpa using this

theorem drawBit_clip (sd ys xs y x : Nat) (p : (Nat → Nat → Nat) × Nat)
    (h : 32 ≤ y + ys ∨ 64 ≤ x + xs) : drawBit sd ys xs y x p = p := by
  rw [drawBit, if_pos h]

theorem drawBit_screen_ne (sd ys xs y x : Nat) (p : (Nat → Nat → Nat) × Nat) (r c : Nat)
    (h : ¬(r = y + ys ∧ c = x + xs)) : (drawBit sd ys xs y x p).1 r c = p.1 r c := by
  rw [drawBit]
  split
  · rfl
  · simp only [upd2]
    rw [if_neg h]

theorem drawBit_screen_eq (sd ys xs y x : Nat) (p : (Nat → Nat → Nat) × Nat)
    (h1 : y + ys < 32) (h2 : x + xs < 64) :
    (drawBit sd ys xs y x p).1 (y + ys) (x + xs) =
      p.1 (y + ys) (x + xs) ^^^ (if sd &&& (1 <<< (7 - x)) ≠ 0 then 1 else 0) := by
  rw [drawBit, if_neg (by omega)]
  simp [upd2]

theorem drawBit_vf (sd ys xs y x : Nat) (p : (Nat → Nat → Nat) × Nat)
    (h1 : y + ys < 32) (h2 : x + xs < 64) :
    (drawBit sd ys xs y x p).2 =
      if p.1 (y + ys) (x + xs) = 1 ∧ sd &&& (1 <<< (7 - x)) ≠ 0 then 1 else p.2 := by
  rw [drawBit, if_neg (by omega)]
  by_cases hp : p.1 (y + ys) (x + xs) = 1
  · by_cases hl : sd &&& (1 <<< (7 - x)) ≠ 0
    · simp [hp, hl]
    · simp [hp, hl]
  · simp [hp]

theorem drawRowAux_screen (sd ys xs y : Nat) :
    ∀ k x p r c, (drawRowAux sd ys xs y x k p).1 r c =
      if r = y + ys ∧ r < 32 ∧ x + xs ≤ c ∧ c < x + k + xs ∧ c < 64
      then p.1 r c ^^^ (if sd &&& (1 <<< (7 - (c - xs))) ≠ 0 then 1 else 0)
      else p.1 r c := by
  intro k
  induction k with
  | zero =>
    intro x p r c
    simp only [drawRowAux]
    rw [if_neg (by rintro ⟨-, -, h3, h4, -⟩; omega)]
  | succ k ih =>
    intro x p r c
    simp only [drawRowAux]
    rw [ih (x + 1) (drawBit sd ys xs y x p) r c]
    by_cases hclip : 32 ≤ y + ys ∨ 64 ≤ x + xs
    · rw [drawBit_clip sd ys xs y x p hclip]
      have hS : ¬(r = y + ys ∧ r < 32 ∧ x + 1 + xs ≤ c ∧ c < x + 1 + k + xs ∧ c < 64) := by
        rintro ⟨h1, h2, h3, -, h5⟩
        rcases hclip with h | h <;> omega
      have hT : ¬(r = y + ys ∧ r < 32 ∧ x + xs ≤ c ∧ c < x + (k + 1) + xs ∧ c < 64) := by
        rintro ⟨h1, h2, h3, -, h5⟩
        rcases hclip with h | h <;> omega
      rw [if_neg hS, if_neg hT]
    · push_neg at hclip
      obtain ⟨h32, h64⟩ := hclip
      by_cases hc : r = y + ys ∧ c = x + xs
      · obtain ⟨hr, hcc⟩ := hc
        subst hr
        subst hcc
        have hS : ¬(y + ys = y + ys ∧ y + ys < 32 ∧ x + 1 + xs ≤ x + xs ∧
            x + xs < x + 1 + k + xs ∧ x + xs < 64) := by
          rintro ⟨-, -, h3, -, -⟩; omega
        rw [if_neg hS, drawBit_screen_eq sd ys xs y x p h32 h64]
        have hT : y + ys = y + ys ∧ y + ys < 32 ∧ x + xs ≤ x + xs ∧
            x + xs < x + (k + 1) + xs ∧ x + xs < 64 :=
          ⟨rfl, h32, Nat.le_refl _, by omega, h64⟩
        rw [if_pos hT]
        have hx : x + xs - xs = x := by omega
        rw [hx]
      · rw [drawBit_screen_ne sd ys xs y x p r c hc]
        by_cases hS : r = y + ys ∧ r < 32 ∧ x + 1 + xs ≤ c ∧ c < x + 1 + k + xs ∧ c < 64
        · have hT : r = y + ys ∧ r < 32 ∧ x + xs ≤ c ∧ c < x + (k + 1) + xs ∧ c < 64 :=
            ⟨hS.1, hS.2.1, by omega, by omega, hS.2.2.2.2⟩
          rw [if_pos hS, if_pos hT]
        · have hT : ¬(r = y + ys ∧ r < 32 ∧ x + xs ≤ c ∧ c < x + (k + 1) + xs ∧ c < 64) := by
            rintro ⟨h1, h2, h3, h4, h5⟩
            by_cases hcx : c = x + xs
            · exact hc ⟨h1, hcx⟩
            · exact hS ⟨h1, h2, by omega, by omega, h5⟩
          rw [if_neg hS, if_neg hT]

theorem drawRowAux_vf (sd ys xs y : Nat) :
    ∀ k x p, (drawRowAux sd ys xs y x k p).2 =
      if y + ys < 32 ∧ ∃ c, c < 64 ∧ x + xs ≤ c ∧ c < x + k + xs ∧
          p.1 (y + ys) c = 1 ∧ sd &&& (1 <<< (7 - (c - xs))) ≠ 0
      then 1 else p.2 := by
  intro k
  induction k with
  | zero =>
    intro x p
    simp only [drawRowAux]
    rw [if_neg (by rintro ⟨-, c, -, h2, h3, -⟩; omega)]
  | succ k ih =>
    intro x p
    simp only [drawRowAux]
    rw [ih (x + 1) (drawBit sd ys xs y x p)]
    by_cases hclip : 32 ≤ y + ys ∨ 64 ≤ x + xs
    · rw [drawBit_clip sd ys xs y x p hclip]
      have hA : ¬(y + ys < 32 ∧ ∃ c, c < 64 ∧ x + 1 + xs ≤ c ∧ c < x + 1 + k + xs ∧
          p.1 (y + ys) c = 1 ∧ sd &&& (1 <<< (7 - (c - xs))) ≠ 0) := by
        rintro ⟨h1, c, h2, h3, -⟩
        rcases hclip with h | h <;> omega
      have hB : ¬(y + ys < 32 ∧ ∃ c, c < 64 ∧ x + xs ≤ c ∧ c < x + (k + 1) + xs ∧
          p.1 (y + ys) c = 1 ∧ sd &&& (1 <<< (7 - (c - xs))) ≠ 0) := by
        rintro ⟨h1, c, h2, h3, -⟩
        rcases hclip with h | h <;> omega
      rw [if_neg hA, if_neg hB]
    · push_neg at hclip
      obtain ⟨h32, h64⟩ := hclip
      have hiff : (∃ c, c < 64 ∧ x + 1 + xs ≤ c ∧ c < x + 1 + k + xs ∧
          (drawBit sd ys xs y x p).1 (y + ys) c = 1 ∧
          sd &&& (1 <<< (7 - (c - xs))) ≠ 0) ↔
          (∃ c, c < 64 ∧ x + 1 + xs ≤ c ∧ c < x + 1 + k + xs ∧
          p.1 (y + ys) c = 1 ∧ sd &&& (1 <<< (7 - (c - xs))) ≠ 0) := by
        apply exists_congr
        intro c
        constructor
        · rintro ⟨h1, h2, h3, h4, h5⟩
          rw [drawBit_screen_ne sd ys xs y x p (y + ys) c (by rintro ⟨-, hcx⟩; omega)] at h4
          exact ⟨h1, h2, h3, h4, h5⟩
        · rintro ⟨h1, h2, h3, h4, h5⟩
          rw [drawBit_screen_ne sd ys xs y x p (y + ys) c (by rintro ⟨-, hcx⟩; omega)]
          exact ⟨h1, h2, h3, h4, h5⟩
      rw [drawBit_vf sd ys xs y x p h32 h64]
      simp only [hiff]
      by_cases hE : ∃ c, c < 64 ∧ x + 1 + xs ≤ c ∧ c < x + 1 + k + xs ∧
          p.1 (y + ys) c = 1 ∧ sd &&& (1 <<< (7 - (c - xs))) ≠ 0
      · have hA : y + ys < 32 ∧ ∃ c, c < 64 ∧ x + 1 + xs ≤ c ∧ c < x + 1 + k + xs ∧
            p.1 (y + ys) c = 1 ∧ sd &&& (1 <<< (7 - (c - xs))) ≠ 0 := ⟨h32, hE⟩
        obtain ⟨c, h1, h2, h3, h4, h5⟩ := hE
        have hB : y + ys < 32 ∧ ∃ c, c < 64 ∧ x + xs ≤ c ∧ c < x + (k + 1) + xs ∧
            p.1 (y + ys) c = 1 ∧ sd &&& (1 <<< (7 - (c - xs))) ≠ 0 :=
          ⟨h32, c, h1, by omega, by omega, h4, h5⟩
        rw [if_pos hA, if_pos hB]
      · have hA : ¬(y + ys < 32 ∧ ∃ c, c < 64 ∧ x + 1 + xs ≤ c ∧ c < x + 1 + k + xs ∧
            p.1 (y + ys) c = 1 ∧ sd &&& (1 <<< (7 - (c - xs))) ≠ 0) := by
          rintro ⟨-, hh⟩
          exact hE hh
        rw [if_neg hA]
        have hxx : x + xs - xs = x := by omega
        by_cases hD : p.1 (y + ys) (x + xs) = 1 ∧ sd &&& (1 <<< (7 - x)) ≠ 0
        · have hB : y + ys < 32 ∧ ∃ c, c < 64 ∧ x + xs ≤ c ∧ c < x + (k + 1) + xs ∧
              p.1 (y + ys) c = 1 ∧ sd &&& (1 <<< (7 - (c - xs))) ≠ 0 :=
            ⟨h32, x + xs, h64, Nat.le_refl _, by omega, hD.1, by rw [hxx]; exact hD.2⟩
          rw [if_pos hD, if_pos hB]
        · have hB : ¬(y + ys < 32 ∧ ∃ c, c < 64 ∧ x + xs ≤ c ∧ c < x + (k + 1) + xs ∧
              p.1 (y + ys) c = 1 ∧ sd &&& (1 <<< (7 - (c - xs))) ≠ 0) := by
            rintro ⟨-, c, h1, h2, h3, h4, h5⟩
            by_cases hcx : c = x + xs
            · subst hcx
              rw [hxx] at h5
              exact hD ⟨h4, h5⟩
            · exact hE ⟨c, h1, by omega, by omega, h4, h5⟩
          rw [if_neg hD, if_neg hB]

theorem drawRows_ok (ram : Nat → Nat) (i ys xs : Nat) :
    ∀ k y p, (∀ y', y ≤ y' → y' < y + k → i + y' < 4096) →
      ∃ q, drawRows ram i ys xs y k p = .ok q ∧
        (∀ r c, q.1 r c =
          if y + ys ≤ r ∧ r < y + k + ys ∧ r < 32 ∧ xs ≤ c ∧ c < xs + 8 ∧ c < 64
          then p.1 r c ^^^
            (if ram (i + (r - ys)) &&& (1 <<< (7 - (c - xs))) ≠ 0 then 1 else 0)
          else p.1 r c) ∧
        (q.2 = if ∃ r, r < 32 ∧ y + ys ≤ r ∧ r < y + k + ys ∧ ∃ c, c < 64 ∧ xs ≤ c ∧
              c < xs + 8 ∧ p.1 r c = 1 ∧ ram (i + (r - ys)) &&& (1 <<< (7 - (c - xs))) ≠ 0
            then 1 else p.2) := by
  intro k
  induction k with
  | zero =>
    intro y p hb
    refine ⟨p, rfl, fun r c => ?_, ?_⟩
    · rw [if_neg (by rintro ⟨h1, h2, -⟩; omega)]
    · rw [if_neg (by rintro ⟨r, -, h2, h3, -⟩; omega)]
  | succ k ih =>
    intro y p hb
    have hy : i + y < 4096 := hb y (Nat.le_refl _) (by omega)
    obtain ⟨q, hq, hqs, hqv⟩ := ih (y + 1) (drawRowAux (ram (i + y)) ys xs y 0 8 p)
      (fun y' h1 h2 => hb y' (by omega) (by omega))
    refine ⟨q, by simp [drawRows, ramRead, hy, except_bind_ok, hq], fun r c => ?_, ?_⟩
    · rw [hqs r c, drawRowAux_screen (ram (i + y)) ys xs y 8 0 p r c]
      by_cases hrow : r = y + ys ∧ r < 32 ∧ 0 + xs ≤ c ∧ c < 0 + 8 + xs ∧ c < 64
      · have hS : ¬(y + 1 + ys ≤ r ∧ r < y + 1 + k + ys ∧ r < 32 ∧ xs ≤ c ∧
            c < xs + 8 ∧ c < 64) := by
          rintro ⟨h1, -⟩
          omega
        have hT : y + ys ≤ r ∧ r < y + (k + 1) + ys ∧ r < 32 ∧ xs ≤ c ∧
            c < xs + 8 ∧ c < 64 :=
          ⟨by omega, by omega, hrow.2.1, by omega, by omega, hrow.2.2.2.2⟩
        rw [if_pos hrow, if_neg hS, if_pos hT]
        have hry : r - ys = y := by omega
        rw [hry]
      · rw [if_neg hrow]
        by_cases hS : y + 1 + ys ≤ r ∧ r < y + 1 + k + ys ∧ r < 32 ∧ xs ≤ c ∧
            c < xs + 8 ∧ c < 64
        · have hT : y + ys ≤ r ∧ r < y + (k + 1) + ys ∧ r < 32 ∧ xs ≤ c ∧
              c < xs + 8 ∧ c < 64 :=
            ⟨by omega, by omega, hS.2.2.1, hS.2.2.2.1, hS.2.2.2.2.1, hS.2.2.2.2.2⟩
          rw [if_pos hS, if_pos hT]
        · have hT : ¬(y + ys ≤ r ∧ r < y + (k + 1) + ys ∧ r < 32 ∧ xs ≤ c ∧
              c < xs + 8 ∧ c < 64) := by
            rintro ⟨h1, h2, h3, h4, h5, h6⟩
            by_cases hr : r = y + ys
            · exact hrow ⟨hr, h3, by omega, by omega, h6⟩
            · exact hS ⟨by omega, by omega, h3, h4, h5, h6⟩
          rw [if_neg hS, if_neg hT]
    · have hpres : ∀ r c, r ≠ y + ys →
          (drawRowAux (ram (i + y)) ys xs y 0 8 p).1 r c = p.1 r c := by
        intro r c hr
        rw [drawRowAux_screen (ram (i + y)) ys xs y 8 0 p r c,
          if_neg (by rintro ⟨h1, -⟩; exact hr h1)]
      rw [hqv, drawRowAux_vf (ram (i + y)) ys xs y 8 0 p]
      have hiff : (∃ r, r < 32 ∧ y + 1 + ys ≤ r ∧ r < y + 1 + k + ys ∧ ∃ c, c < 64 ∧
          xs ≤ c ∧ c < xs + 8 ∧ (drawRowAux (ram (i + y)) ys xs y 0 8 p).1 r c = 1 ∧
          ram (i + (r - ys)) &&& (1 <<< (7 - (c - xs))) ≠ 0) ↔
          (∃ r, r < 32 ∧ y + 1 + ys ≤ r ∧ r < y + 1 + k + ys ∧ ∃ c, c < 64 ∧
          xs ≤ c ∧ c < xs + 8 ∧ p.1 r c = 1 ∧
          ram (i + (r - ys)) &&& (1 <<< (7 - (c - xs))) ≠ 0) := by
        apply exists_congr
        intro r
        constructor
        · rintro ⟨h1, h2, h3, c, h4, h5, h6, h7, h8⟩
          rw [hpres r c (by omega)] at h7
          exact ⟨h1, h2, h3, c, h4, h5, h6, h7, h8⟩
        · rintro ⟨h1, h2, h3, c, h4, h5, h6, h7, h8⟩
          refine ⟨h1, h2, h3, c, h4, h5, h6, ?_, h8⟩
          rw [hpres r c (by omega)]
          exact h7
      simp only [hiff]
      by_cases hE : ∃ r, r < 32 ∧ y + 1 + ys ≤ r ∧ r < y + 1 + k + ys ∧ ∃ c, c < 64 ∧
          xs ≤ c ∧ c < xs + 8 ∧ p.1 r c = 1 ∧
          ram (i + (r - ys)) &&& (1 <<< (7 - (c - xs))) ≠ 0
      · have hE' := hE
        obtain ⟨r, h1, h2, h3, c, h4, h5, h6, h7, h8⟩ := hE
        have hT : ∃ r, r < 32 ∧ y + ys ≤ r ∧ r < y + (k + 1) + ys ∧ ∃ c, c < 64 ∧
            xs ≤ c ∧ c < xs + 8 ∧ p.1 r c = 1 ∧
            ram (i + (r - ys)) &&& (1 <<< (7 - (c - xs))) ≠ 0 :=
          ⟨r, h1, by omega, by omega, c, h4, h5, h6, h7, h8⟩
        rw [if_pos hE', if_pos hT]
      · rw [if_neg hE]
        by_cases hrowA : y + ys < 32 ∧ ∃ c, c < 64 ∧ 0 + xs ≤ c ∧ c < 0 + 8 + xs ∧
            p.1 (y + ys) c = 1 ∧ ram (i + y) &&& (1 <<< (7 - (c - xs))) ≠ 0
        · have hrowA' := hrowA
          obtain ⟨h32, c, h4, h5, h6, h7, h8⟩ := hrowA
          have hry : y + ys - ys = y := by omega
          have hT : ∃ r, r < 32 ∧ y + ys ≤ r ∧ r < y + (k + 1) + ys ∧ ∃ c, c < 64 ∧
              xs ≤ c ∧ c < xs + 8 ∧ p.1 r c = 1 ∧
              ram (i + (r - ys)) &&& (1 <<< (7 - (c - xs))) ≠ 0 :=
            ⟨y + ys, h32, Nat.le_refl _, by omega, c, h4, by omega, by omega, h7,
             by rw [hry]; exact h8⟩
          rw [if_pos hrowA', if_pos hT]
        · have hT : ¬(∃ r, r < 32 ∧ y + ys ≤ r ∧ r < y + (k + 1) + ys ∧ ∃ c, c < 64 ∧
              xs ≤ c ∧ c < xs + 8 ∧ p.1 r c = 1 ∧
              ram (i + (r - ys)) &&& (1 <<< (7 - (c - xs))) ≠ 0) := by
            rintro ⟨r, h1, h2, h3, c, h4, h5, h6, h7, h8⟩
            by_cases hr : r = y + ys
            · subst hr
              refine hrowA ⟨h1, c, h4, by omega, by omega, h7, ?_⟩
              rw [show y + ys - ys = y from by omega] at h8
              exact h8
            · exact hE ⟨r, h1, by omega, by omega, c, h4, h5, h6, h7, h8⟩
          rw [if_neg hrowA, if_neg hT]

/-- C4: DXYN draws at origin `(v[x] mod 64, v[y] mod 32)`; each sprite byte is
rendered most-significant bit leftmost (bit `7 - (c - x_start)` at column
`c`); sprite pixels outside the 64x32 grid are clipped, not wrapped (only
cells with `y_start ≤ r < y_start + N`, `x_start ≤ c < x_start + 8` inside
the grid change, with no modular wrap of `r` or `c`); every drawn pixel is
XORed into the framebuffer; and the flags register becomes 1 exactly when
some drawn pixel was set and its sprite bit is set (a set-to-cleared
transition), else 0. -/
theorem drawSprite_spec (h : Host) (s : Chip8) (rx ry n : Nat)
    (hn : n ≤ 15) (hbound : ∀ y, y < n → s.i + y < 4096) :
    ∃ s', exec h s (.DrawSprite rx ry n) = .ok s' ∧
      (∀ r c, r < 32 → c < 64 →
        s'.screen r c =
          if s.v ry % 32 ≤ r ∧ r < s.v ry % 32 + n ∧ s.v rx % 64 ≤ c ∧
              c < s.v rx % 64 + 8 ∧
              Nat.testBit (s.ram (s.i + (r - s.v ry % 32))) (7 - (c - s.v rx % 64))
          then s.screen r c ^^^ 1 else s.screen r c) ∧
      (s'.v 15 = if ∃ r, r < 32 ∧ s.v ry % 32 ≤ r ∧ r < s.v ry % 32 + n ∧ ∃ c, c < 64 ∧
            s.v rx % 64 ≤ c ∧ c < s.v rx % 64 + 8 ∧ s.screen r c = 1 ∧
            Nat.testBit (s.ram (s.i + (r - s.v ry % 32))) (7 - (c - s.v rx % 64))
          then 1 else 0) ∧
      (∀ j, j ≠ 15 → s'.v j = s.v j) ∧
      s'.pc = s.pc ∧ s'.i = s.i ∧ s'.ram = s.ram ∧ s'.stack = s.stack ∧
      s'.deelay = s.deelay ∧ s'.sound_timer = s.sound_timer := by
  obtain ⟨q, hq, hqs, hqv⟩ := drawRows_ok s.ram s.i (s.v ry % 32) (s.v rx % 64) n 0
    (s.screen, 0) (fun y' _ h2 => hbound y' (by omega))
  dsimp only at hqs hqv
  refine ⟨{ s with screen := q.1, v := upd s.v 15 q.2, screen_update := true },
    by simp [exec, hn, hq], ?_, ?_, fun j hj => upd_ne _ _ _ hj, rfl, rfl, rfl, rfl, rfl, rfl⟩
  · intro r c hr hc
    show q.1 r c = _
    rw [hqs r c]
    by_cases hland : s.ram (s.i + (r - s.v ry % 32)) &&&
        (1 <<< (7 - (c - s.v rx % 64))) ≠ 0
    · by_cases hin : 0 + s.v ry % 32 ≤ r ∧ r < 0 + n + s.v ry % 32 ∧ r < 32 ∧
          s.v rx % 64 ≤ c ∧ c < s.v rx % 64 + 8 ∧ c < 64
      · have hT : s.v ry % 32 ≤ r ∧ r < s.v ry % 32 + n ∧ s.v rx % 64 ≤ c ∧
            c < s.v rx % 64 + 8 ∧
            Nat.testBit (s.ram (s.i + (r - s.v ry % 32))) (7 - (c - s.v rx % 64)) :=
          ⟨by omega, by omega, hin.2.2.2.1, hin.2.2.2.2.1,
           (land_shiftLeft_ne_zero _ _).mp hland⟩
        rw [if_pos hin, if_pos hland, if_pos hT]
      · have hT : ¬(s.v ry % 32 ≤ r ∧ r < s.v ry % 32 + n ∧ s.v rx % 64 ≤ c ∧
            c < s.v rx % 64 + 8 ∧
            Nat.testBit (s.ram (s.i + (r - s.v ry % 32))) (7 - (c - s.v rx % 64))) := by
          rintro ⟨h1, h2, h3, h4, -⟩
          exact hin ⟨by omega, by omega, hr, h3, h4, hc⟩
        rw [if_neg hin, if_neg hT]
    · have hT : ¬(s.v ry % 32 ≤ r ∧ r < s.v ry % 32 + n ∧ s.v rx % 64 ≤ c ∧
          c < s.v rx % 64 + 8 ∧
          Nat.testBit (s.ram (s.i + (r - s.v ry % 32))) (7 - (c - s.v rx % 64))) := by
        rintro ⟨-, -, -, -, h5⟩
        exact hland ((land_shiftLeft_ne_zero _ _).mpr h5)
      rw [if_neg hT]
      by_cases hin : 0 + s.v ry % 32 ≤ r ∧ r < 0 + n + s.v ry % 32 ∧ r < 32 ∧
          s.v rx % 64 ≤ c ∧ c < s.v rx % 64 + 8 ∧ c < 64
      · rw [if_pos hin, if_neg hland]
        exact Nat.xor_zero _
      · rw [if_neg hin]
  · show upd s.v 15 q.2 15 = _
    rw [upd_self, hqv]
    have hiff : (∃ r, r < 32 ∧ 0 + s.v ry % 32 ≤ r ∧ r < 0 + n + s.v ry % 32 ∧ ∃ c,
        c < 64 ∧ s.v rx % 64 ≤ c ∧ c < s.v rx % 64 + 8 ∧ s.screen r c = 1 ∧
        s.ram (s.i + (r - s.v ry % 32)) &&& (1 <<< (7 - (c - s.v rx % 64))) ≠ 0) ↔
        (∃ r, r < 32 ∧ s.v ry % 32 ≤ r ∧ r < s.v ry % 32 + n ∧ ∃ c, c < 64 ∧
        s.v rx % 64 ≤ c ∧ c < s.v rx % 64 + 8 ∧ s.screen r c = 1 ∧
        Nat.testBit (s.ram (s.i + (r - s.v ry % 32))) (7 - (c - s.v rx % 64))) := by
      apply exists_congr
      intro r
      constructor
      · rintro ⟨h1, h2, h3, c, h4, h5, h6, h7, h8⟩
        exact ⟨h1, by omega, by omega, c, h4, h5, h6, h7,
          (land_shiftLeft_ne_zero _ _).mp h8⟩
      · rintro ⟨h1, h2, h3, c, h4, h5, h6, h7, h8⟩
        exact ⟨h1, by omega, by omega, c, h4, h5, h6, h7,
          (land_shiftLeft_ne_zero _ _).mpr h8⟩
    by_cases hE : ∃ r, r < 32 ∧ 0 + s.v ry % 32 ≤ r ∧ r < 0 + n + s.v ry % 32 ∧ ∃ c,
        c < 64 ∧ s.v rx % 64 ≤ c ∧ c < s.v rx % 64 + 8 ∧ s.screen r c = 1 ∧
        s.ram (s.i + (r - s.v ry % 32)) &&& (1 <<< (7 - (c - s.v rx % 64))) ≠ 0
    · rw [if_pos hE, if_pos (hiff.mp hE)]
    · rw [if_neg hE, if_neg (fun hh => hE (hiff.mpr hh))]

set_option maxRecDepth 4096 in
/-- C4 witness: sprite byte 0xF0 drawn at (0,0) on a blank screen sets the
four leftmost pixels of row 0, leaves column 4 clear and reports no
collision. -/
theorem drawSprite_spec_witness :
    ∃ s', exec host0 { zeroState with ram := upd zeroState.ram 0 0xF0 }
        (.DrawSprite 0 0 1) = .ok s' ∧
      s'.screen 0 0 = 1 ∧ s'.screen 0 3 = 1 ∧ s'.screen 0 4 = 0 ∧ s'.v 15 = 0 := by
  obtain ⟨s', hok, hscr, hvf, -⟩ := drawSprite_spec host0
    { zeroState with ram := upd zeroState.ram 0 0xF0 } 0 0 1 (by decide) (by decide)
  refine ⟨s', hok, ?_, ?_, ?_, ?_⟩
  · rw [hscr 0 0 (by decide) (by decide), if_pos (by decide)]
    decide
  · rw [hscr 0 3 (by decide) (by decide), if_pos (by decide)]
    decide
  · rw [hscr 0 4 (by decide) (by decide), if_neg (by decide)]
    decide
  · rw [hvf, if_neg (by decide)]
